import Mathlib

/-!
Verification of the NSkbd keyboard-layout switcher core (src/src/main.rs)
against its natural-language specification.

The Rust source is shallowly embedded:
* `Key`, `ModifierState`, `strToKey`, `checkHotkey` model the hotkey matcher
  (`ModifierState::matches`, `KeyboardLayoutSwitcher::str_to_key`,
  `KeyboardLayoutSwitcher::check_hotkey`);
* the debounce gate of `start_keyboard_listener` is modelled over
  millisecond timestamps;
* `AppConfig` with JSON-level `save`/`load` models the persisted mapping
  store (`AppConfig::save_to_file` / `AppConfig::load_from_file`), with the
  `HashMap`s modelled as association lists and serde's JSON text layer
  modelled at the level of the JSON value tree;
* `handleWindowChange` / `runLoop` model the focus-change reactor
  (`KeyboardLayoutSwitcher::handle_window_change` and the event loop of
  `KeyboardLayoutSwitcher::run`).
-/

/-- `rdev::Key`: an opaque enumeration of OS key identifiers, used by the
program only through equality, hashing and the named variants below. It is
modelled as a tag string; every `rdev::Key` variant the source mentions gets
a distinct tag. -/
structure Key where
  tag : String
deriving DecidableEq

def Key.ShiftLeft : Key := ⟨"ShiftLeft"⟩
def Key.ShiftRight : Key := ⟨"ShiftRight"⟩
def Key.ControlLeft : Key := ⟨"ControlLeft"⟩
def Key.ControlRight : Key := ⟨"ControlRight"⟩
def Key.Alt : Key := ⟨"Alt"⟩
def Key.AltGr : Key := ⟨"AltGr"⟩
def Key.MetaLeft : Key := ⟨"MetaLeft"⟩
def Key.MetaRight : Key := ⟨"MetaRight"⟩
def Key.KeyA : Key := ⟨"KeyA"⟩
def Key.KeyB : Key := ⟨"KeyB"⟩
def Key.KeyC : Key := ⟨"KeyC"⟩
def Key.KeyD : Key := ⟨"KeyD"⟩
def Key.KeyE : Key := ⟨"KeyE"⟩
def Key.KeyF : Key := ⟨"KeyF"⟩
def Key.KeyG : Key := ⟨"KeyG"⟩
def Key.KeyH : Key := ⟨"KeyH"⟩
def Key.KeyI : Key := ⟨"KeyI"⟩
def Key.KeyJ : Key := ⟨"KeyJ"⟩
def Key.KeyK : Key := ⟨"KeyK"⟩
def Key.KeyL : Key := ⟨"KeyL"⟩
def Key.KeyM : Key := ⟨"KeyM"⟩
def Key.KeyN : Key := ⟨"KeyN"⟩
def Key.KeyO : Key := ⟨"KeyO"⟩
def Key.KeyP : Key := ⟨"KeyP"⟩
def Key.KeyQ : Key := ⟨"KeyQ"⟩
def Key.KeyR : Key := ⟨"KeyR"⟩
def Key.KeyS : Key := ⟨"KeyS"⟩
def Key.KeyT : Key := ⟨"KeyT"⟩
def Key.KeyU : Key := ⟨"KeyU"⟩
def Key.KeyV : Key := ⟨"KeyV"⟩
def Key.KeyW : Key := ⟨"KeyW"⟩
def Key.KeyX : Key := ⟨"KeyX"⟩
def Key.KeyY : Key := ⟨"KeyY"⟩
def Key.KeyZ : Key := ⟨"KeyZ"⟩
def Key.Num0 : Key := ⟨"Num0"⟩
def Key.Num1 : Key := ⟨"Num1"⟩
def Key.Num2 : Key := ⟨"Num2"⟩
def Key.Num3 : Key := ⟨"Num3"⟩
def Key.Num4 : Key := ⟨"Num4"⟩
def Key.Num5 : Key := ⟨"Num5"⟩
def Key.Num6 : Key := ⟨"Num6"⟩
def Key.Num7 : Key := ⟨"Num7"⟩
def Key.Num8 : Key := ⟨"Num8"⟩
def Key.Num9 : Key := ⟨"Num9"⟩
def Key.F1 : Key := ⟨"F1"⟩
def Key.F2 : Key := ⟨"F2"⟩
def Key.F3 : Key := ⟨"F3"⟩
def Key.F4 : Key := ⟨"F4"⟩
def Key.F5 : Key := ⟨"F5"⟩
def Key.F6 : Key := ⟨"F6"⟩
def Key.F7 : Key := ⟨"F7"⟩
def Key.F8 : Key := ⟨"F8"⟩
def Key.F9 : Key := ⟨"F9"⟩
def Key.F10 : Key := ⟨"F10"⟩
def Key.F11 : Key := ⟨"F11"⟩
def Key.F12 : Key := ⟨"F12"⟩
def Key.Space : Key := ⟨"Space"⟩
def Key.Return : Key := ⟨"Return"⟩
def Key.Tab : Key := ⟨"Tab"⟩
def Key.Backspace : Key := ⟨"Backspace"⟩
def Key.Escape : Key := ⟨"Escape"⟩
def Key.Insert : Key := ⟨"Insert"⟩
def Key.Delete : Key := ⟨"Delete"⟩
def Key.Home : Key := ⟨"Home"⟩
def Key.End : Key := ⟨"End"⟩
def Key.PageUp : Key := ⟨"PageUp"⟩
def Key.PageDown : Key := ⟨"PageDown"⟩
def Key.UpArrow : Key := ⟨"UpArrow"⟩
def Key.DownArrow : Key := ⟨"DownArrow"⟩
def Key.LeftArrow : Key := ⟨"LeftArrow"⟩
def Key.RightArrow : Key := ⟨"RightArrow"⟩

/-- The four modifier flags of `struct ModifierState`. -/
structure ModifierState where
  shift : Bool
  ctrl : Bool
  alt : Bool
  meta : Bool
deriving DecidableEq

/-- `ModifierState::update`: a press sets the role's flag, a release clears
it, unconditionally; non-modifier keys are ignored. -/
def ModifierState.update (m : ModifierState) (key : Key) (isPress : Bool) : ModifierState :=
  if key = Key.ShiftLeft ∨ key = Key.ShiftRight then { m with shift := isPress }
  else if key = Key.ControlLeft ∨ key = Key.ControlRight then { m with ctrl := isPress }
  else if key = Key.Alt ∨ key = Key.AltGr then { m with alt := isPress }
  else if key = Key.MetaLeft ∨ key = Key.MetaRight then { m with meta := isPress }
  else m

/-- The `required_mods : HashSet<&str>` of `check_hotkey`: only the four
strings "shift", "ctrl", "alt", "meta" are ever inserted, so the set is
modelled by four membership flags. -/
structure ReqMods where
  shift : Bool
  ctrl : Bool
  alt : Bool
  meta : Bool
deriving DecidableEq

def ReqMods.empty : ReqMods := ⟨false, false, false, false⟩

/-- `ModifierState::matches`: each live flag must equal the corresponding
set membership — an exact equality on all four modifiers. -/
def ModifierState.matchesReq (m : ModifierState) (required : ReqMods) : Bool :=
  (required.shift == m.shift) && (required.ctrl == m.ctrl)
    && (required.alt == m.alt) && (required.meta == m.meta)

/-- Rust `char`-wise lowercasing (`str::to_lowercase`), defined structurally
over the string's character list so that it evaluates inside the kernel. -/
def toLowerStr (s : String) : String :=
  ⟨s.data.map Char.toLower⟩

/-- `KeyboardLayoutSwitcher::str_to_key`: case-insensitive key-name table. -/
def strToKey (keyStr : String) : Option Key :=
  match toLowerStr keyStr with
  | "a" => some .KeyA
  | "b" => some .KeyB
  | "c" => some .KeyC
  | "d" => some .KeyD
  | "e" => some .KeyE
  | "f" => some .KeyF
  | "g" => some .KeyG
  | "h" => some .KeyH
  | "i" => some .KeyI
  | "j" => some .KeyJ
  | "k" => some .KeyK
  | "l" => some .KeyL
  | "m" => some .KeyM
  | "n" => some .KeyN
  | "o" => some .KeyO
  | "p" => some .KeyP
  | "q" => some .KeyQ
  | "r" => some .KeyR
  | "s" => some .KeyS
  | "t" => some .KeyT
  | "u" => some .KeyU
  | "v" => some .KeyV
  | "w" => some .KeyW
  | "x" => some .KeyX
  | "y" => some .KeyY
  | "z" => some .KeyZ
  | "0" => some .Num0
  | "1" => some .Num1
  | "2" => some .Num2
  | "3" => some .Num3
  | "4" => some .Num4
  | "5" => some .Num5
  | "6" => some .Num6
  | "7" => some .Num7
  | "8" => some .Num8
  | "9" => some .Num9
  | "f1" => some .F1
  | "f2" => some .F2
  | "f3" => some .F3
  | "f4" => some .F4
  | "f5" => some .F5
  | "f6" => some .F6
  | "f7" => some .F7
  | "f8" => some .F8
  | "f9" => some .F9
  | "f10" => some .F10
  | "f11" => some .F11
  | "f12" => some .F12
  | "space" => some .Space
  | "enter" => some .Return
  | "tab" => some .Tab
  | "backspace" => some .Backspace
  | "escape" => some .Escape
  | "insert" => some .Insert
  | "delete" => some .Delete
  | "home" => some .Home
  | "end" => some .End
  | "pageup" => some .PageUp
  | "pagedown" => some .PageDown
  | "up" => some .UpArrow
  | "down" => some .DownArrow
  | "left" => some .LeftArrow
  | "right" => some .RightArrow
  | _ => none

/-- Helper for `splitWhitespace`: accumulate the current word (reversed) and
cut at whitespace, dropping empty fragments. -/
def wordsAux : List Char → List Char → List (List Char)
  | cur, [] => if cur.isEmpty then [] else [cur.reverse]
  | cur, c :: cs =>
    if c.isWhitespace then
      if cur.isEmpty then wordsAux [] cs else cur.reverse :: wordsAux [] cs
    else wordsAux (c :: cur) cs

/-- Rust's `str::split_whitespace`: split on runs of whitespace, producing no
empty fragments. -/
def splitWhitespace (s : String) : List String :=
  (wordsAux [] s.data).map (fun w => ⟨w⟩)

/-- Classification of one hotkey-spec token, after lowercasing, by the
`match part.to_lowercase().as_str()` of `check_hotkey`. `keyTok` carries
the lowercased token bound by the catch-all arm. -/
inductive TokClass where
  | modShift | modCtrl | modAlt | modMeta
  | keyTok (lowered : String)
deriving DecidableEq

def classify (part : String) : TokClass :=
  let l := toLowerStr part
  if l = "shift" then .modShift
  else if l = "ctrl" then .modCtrl
  else if l = "alt" then .modAlt
  else if l = "meta" ∨ l = "super" ∨ l = "win" then .modMeta
  else .keyTok l

/-- One iteration of the token loop of `check_hotkey`: modifier aliases are
inserted into `required_mods`; any other token overwrites `required_key`
with `str_to_key` of the (lowercased) token — also when that yields `None`. -/
def hotkeyStep (acc : ReqMods × Option Key) (part : String) : ReqMods × Option Key :=
  match classify part with
  | .modShift => ({ acc.1 with shift := true }, acc.2)
  | .modCtrl => ({ acc.1 with ctrl := true }, acc.2)
  | .modAlt => ({ acc.1 with alt := true }, acc.2)
  | .modMeta => ({ acc.1 with meta := true }, acc.2)
  | .keyTok l => (acc.1, strToKey l)

/-- The parsing phase of `check_hotkey`: fold the token loop over the
whitespace-split spec, starting from an empty set and no required key. -/
def parseHotkey (hotkeyStr : String) : ReqMods × Option Key :=
  (splitWhitespace hotkeyStr).foldl hotkeyStep (ReqMods.empty, none)

/-- `KeyboardLayoutSwitcher::check_hotkey`: modifiers must match exactly and
the required key — `required_key.map_or(false, |k| pressed_keys.contains(&k))`
— must be among the pressed keys. -/
def checkHotkey (pressedKeys : List Key) (modifiers : ModifierState) (hotkeyStr : String) : Bool :=
  let parsed := parseHotkey hotkeyStr
  modifiers.matchesReq parsed.1 && parsed.2.elim false (fun k => pressedKeys.contains k)

/-! Declarative (spec-side) characterisations of the hotkey parse, stated
independently of the fold so the matcher theorems relate two different
formulations. -/

/-- The lowercased tokens of a spec. -/
def tokensOf (s : String) : List String :=
  (splitWhitespace s).map toLowerStr

/-- A lowercased token is a modifier alias. -/
def isModTok (l : String) : Bool :=
  l == "shift" || l == "ctrl" || l == "alt" || l == "meta" || l == "super" || l == "win"

/-- The set of modifier flags named by a spec, read off directly from token
membership. -/
def specMods (s : String) : ReqMods :=
  ⟨(tokensOf s).any (fun l => l == "shift"),
   (tokensOf s).any (fun l => l == "ctrl"),
   (tokensOf s).any (fun l => l == "alt"),
   (tokensOf s).any (fun l => l == "meta" || l == "super" || l == "win")⟩

/-- The lowercased non-modifier tokens of a spec, in order. -/
def nonModToks (s : String) : List String :=
  (tokensOf s).filter (fun l => !isModTok l)

/-- The trigger key required by a spec: the key named by the last
non-modifier token, if there is one and the key-name table recognises it. -/
def triggerOf (s : String) : Option Key :=
  (nonModToks s).getLast?.bind strToKey

lemma hotkeyStep_eq (acc : ReqMods × Option Key) (p : String) :
    hotkeyStep acc p =
      if toLowerStr p = "shift" then ({ acc.1 with shift := true }, acc.2)
      else if toLowerStr p = "ctrl" then ({ acc.1 with ctrl := true }, acc.2)
      else if toLowerStr p = "alt" then ({ acc.1 with alt := true }, acc.2)
      else if toLowerStr p = "meta" ∨ toLowerStr p = "super" ∨ toLowerStr p = "win" then
        ({ acc.1 with meta := true }, acc.2)
      else (acc.1, strToKey (toLowerStr p)) := by
  simp only [hotkeyStep, classify]
  split_ifs <;> rfl

lemma foldl_hotkeyStep_fst (ps : List String) (acc : ReqMods × Option Key) :
    (ps.foldl hotkeyStep acc).1 =
      ⟨acc.1.shift || (ps.map toLowerStr).any (fun l => l == "shift"),
       acc.1.ctrl || (ps.map toLowerStr).any (fun l => l == "ctrl"),
       acc.1.alt || (ps.map toLowerStr).any (fun l => l == "alt"),
       acc.1.meta || (ps.map toLowerStr).any
         (fun l => l == "meta" || l == "super" || l == "win")⟩ := by
  induction ps generalizing acc with
  | nil => simp
  | cons p ps ih =>
    rw [List.foldl_cons, ih, hotkeyStep_eq]
    split_ifs with h1 h2 h3 h4
    · simp [h1]
    · simp [h2]
    · simp [h3]
    · rcases h4 with h | h | h <;> simp [h]
    · push_neg at h4
      have e1 : (toLowerStr p == "shift") = false := beq_eq_false_iff_ne.mpr h1
      have e2 : (toLowerStr p == "ctrl") = false := beq_eq_false_iff_ne.mpr h2
      have e3 : (toLowerStr p == "alt") = false := beq_eq_false_iff_ne.mpr h3
      have e4 : (toLowerStr p == "meta") = false := beq_eq_false_iff_ne.mpr h4.1
      have e5 : (toLowerStr p == "super") = false := beq_eq_false_iff_ne.mpr h4.2.1
      have e6 : (toLowerStr p == "win") = false := beq_eq_false_iff_ne.mpr h4.2.2
      simp [e1, e2, e3, e4, e5, e6]

lemma foldl_hotkeyStep_snd (ps : List String) (acc : ReqMods × Option Key) :
    (ps.foldl hotkeyStep acc).2 =
      ((((ps.map toLowerStr).filter (fun l => !isModTok l)).getLast?).map strToKey).getD
        acc.2 := by
  induction ps generalizing acc with
  | nil => simp
  | cons p ps ih =>
    rw [List.foldl_cons, ih, hotkeyStep_eq]
    split_ifs with h1 h2 h3 h4
    · simp [h1, isModTok]
    · simp [h2, isModTok]
    · simp [h3, isModTok]
    · rcases h4 with h | h | h <;> simp [h, isModTok]
    · push_neg at h4
      have hm : isModTok (toLowerStr p) = false := by
        simp [isModTok, h1, h2, h3, h4.1, h4.2.1, h4.2.2]
      simp only [List.map_cons, List.filter_cons, hm, Bool.not_false, if_pos]
      rw [List.getLast?_cons]
      cases hr : ((ps.map toLowerStr).filter (fun l => !isModTok l)).getLast? <;> simp [hr]

lemma parseHotkey_fst (s : String) : (parseHotkey s).1 = specMods s := by
  rw [parseHotkey, foldl_hotkeyStep_fst]
  simp [specMods, tokensOf, ReqMods.empty]

lemma parseHotkey_snd (s : String) : (parseHotkey s).2 = triggerOf s := by
  rw [parseHotkey, foldl_hotkeyStep_snd]
  rw [triggerOf, nonModToks, tokensOf]
  cases hr : ((splitWhitespace s).map toLowerStr).filter (fun l => !isModTok l) |>.getLast? <;>
    simp [hr, ReqMods.empty]

lemma matchesReq_eq_true_iff (ms : ModifierState) (r : ReqMods) :
    ms.matchesReq r = true ↔ r = ⟨ms.shift, ms.ctrl, ms.alt, ms.meta⟩ := by
  cases r
  cases ms
  simp only [ModifierState.matchesReq, Bool.and_eq_true, beq_iff_eq, ReqMods.mk.injEq]
  tauto

lemma elim_contains_eq_true_iff (pressed : List Key) (o : Option Key) :
    o.elim false (fun k => pressed.contains k) = true ↔ ∃ k, o = some k ∧ k ∈ pressed := by
  cases o with
  | none => simp
  | some k => simp [List.elem_iff]

/-- C1: `check_hotkey` returns true iff the modifier tokens of the spec,
read as a set of flags, are exactly the live modifier flags, and the spec's
trigger key (the key named by its last non-modifier token) is among the
currently held keys. -/
theorem check_hotkey_exact_match (pressed : List Key) (ms : ModifierState) (spec : String) :
    checkHotkey pressed ms spec = true ↔
      (specMods spec = ⟨ms.shift, ms.ctrl, ms.alt, ms.meta⟩ ∧
        ∃ k, triggerOf spec = some k ∧ k ∈ pressed) := by
  simp only [checkHotkey, Bool.and_eq_true, matchesReq_eq_true_iff, elim_contains_eq_true_iff,
    parseHotkey_fst, parseHotkey_snd]

/-- C9: the required trigger key of a spec is `str_to_key` of the last
non-modifier token alone — earlier non-modifier tokens are overwritten — and
when that final token is unrecognised by the key-name table the parse yields
no required key, so `check_hotkey` rejects every live state. -/
theorem last_nonmod_token_determines_trigger (spec : String) :
    (parseHotkey spec).2 = (nonModToks spec).getLast?.bind strToKey ∧
      ∀ t, (nonModToks spec).getLast? = some t → strToKey t = none →
        (parseHotkey spec).2 = none ∧
          ∀ pressed ms, checkHotkey pressed ms spec = false := by
  refine ⟨parseHotkey_snd spec, ?_⟩
  intro t ht hnone
  have h2 : (parseHotkey spec).2 = none := by
    rw [parseHotkey_snd, triggerOf, ht]
    simpa using hnone
  exact ⟨h2, fun pressed ms => by simp [checkHotkey, h2]⟩

theorem last_nonmod_token_determines_trigger_witness :
    (nonModToks "ctrl q zzz").getLast? = some "zzz" ∧ strToKey "zzz" = none ∧
      checkHotkey [Key.KeyQ] ⟨false, true, false, false⟩ "ctrl q zzz" = false :=
  ⟨by decide, by decide,
    ((last_nonmod_token_determines_trigger "ctrl q zzz").2 "zzz" (by decide) (by decide)).2
      [Key.KeyQ] ⟨false, true, false, false⟩⟩

/-! The debounce gate of `start_keyboard_listener`. The listener thread keeps
`last_hotkey`, initialised to `SystemTime::now()` at startup; on a matching
key event the remember action runs only when
`now.duration_since(last_hotkey)` is `Ok` and exceeds `Duration::from_secs(1)`,
and `last_hotkey` is set to `now` exactly then. Times are modelled as
millisecond timestamps. -/

/-- The cooldown `Duration::from_secs(1)`, in milliseconds. -/
def cooldownMs : Nat := 1000

/-- One check of the debounce gate at a matching event: returns the new
`last_hotkey` value and whether the remember action fired.
`duration_since` is `Ok` iff `last ≤ now`. -/
def debounceStep (last now : Nat) : Nat × Bool :=
  if last ≤ now ∧ cooldownMs < now - last then (now, true) else (last, false)

/-- Run the listener over timestamped key events; the Bool says whether
`check_hotkey` matched at that event. Returns the final clock and the number
of remember invocations. -/
def processEvents : Nat → List (Nat × Bool) → Nat × Nat
  | last, [] => (last, 0)
  | last, (t, matched) :: rest =>
    if matched then
      let r := debounceStep last t
      let res := processEvents r.1 rest
      (res.1, (if r.2 then 1 else 0) + res.2)
    else processEvents last rest

lemma debounceStep_fire (last now : Nat) (h : last + cooldownMs < now) :
    debounceStep last now = (now, true) := by
  unfold debounceStep cooldownMs at *
  rw [if_pos]
  exact ⟨by omega, by omega⟩

lemma debounceStep_hold (last now : Nat) (h : now ≤ last + cooldownMs) :
    debounceStep last now = (last, false) := by
  unfold debounceStep cooldownMs at *
  rw [if_neg]
  rintro ⟨h1, h2⟩
  omega

/-- C4: with the 1-second cooldown and an eligible clock (more than the
cooldown since the clock's current value), two matching events 200 ms apart
fire the remember action exactly once, two matching events 1100 ms apart fire
it twice, and a suppressed attempt never updates the clock. -/
theorem debounce_cooldown (s t : Nat) (h : s + cooldownMs < t) :
    (processEvents s [(t, true), (t + 200, true)]).2 = 1 ∧
      (processEvents s [(t, true), (t + 1100, true)]).2 = 2 ∧
      ∀ last now, (debounceStep last now).2 = false → (debounceStep last now).1 = last := by
  have f1 : debounceStep s t = (t, true) := debounceStep_fire s t h
  have h2 : debounceStep t (t + 200) = (t, false) :=
    debounceStep_hold t (t + 200) (by simp [cooldownMs])
  have f3 : debounceStep t (t + 1100) = (t + 1100, true) :=
    debounceStep_fire t (t + 1100) (by simp [cooldownMs])
  refine ⟨by simp [processEvents, f1, h2], by simp [processEvents, f1, f3], ?_⟩
  intro last now hf
  by_cases hc : last ≤ now ∧ cooldownMs < now - last
  · simp [debounceStep, hc] at hf
  · simp [debounceStep, hc]

theorem debounce_cooldown_witness :
    0 + cooldownMs < 1001 ∧ (processEvents 0 [(1001, true), (1001 + 200, true)]).2 = 1 ∧
      (processEvents 0 [(1001, true), (1001 + 1100, true)]).2 = 2 :=
  ⟨by decide, (debounce_cooldown 0 1001 (by decide)).1, (debounce_cooldown 0 1001 (by decide)).2.1⟩

/-- C10: `last_hotkey` is initialised to the listener's start time `s`, so a
matching event no more than the cooldown after `s` is suppressed even though
no trigger ever fired before it. -/
theorem debounce_initialized_to_start_time (s t : Nat) (h : t ≤ s + cooldownMs) :
    (debounceStep s t).2 = false ∧ (processEvents s [(t, true)]).2 = 0 := by
  have hh := debounceStep_hold s t h
  exact ⟨by simp [hh], by simp [processEvents, hh]⟩

theorem debounce_initialized_to_start_time_witness :
    500 ≤ 0 + cooldownMs ∧ (processEvents 0 [(500, true)]).2 = 0 :=
  ⟨by decide, (debounce_initialized_to_start_time 0 500 (by decide)).2⟩

/-! The persisted mapping store. `struct AppConfig` holds two `HashMap`s,
modelled as association lists in iteration order; `serde_json`'s text layer
is modelled at the level of the JSON value tree (`to_string_pretty` then
`from_str` corresponds to serialising to and parsing from that tree). The
file on disk is `Option Json`: `none` is a missing file, `some j` a file
whose contents are the JSON document `j`. -/

/-- JSON value trees, restricted to the shapes `AppConfig` serialisation can
produce or its deserialiser inspects. -/
inductive Json where
  | str : String → Json
  | num : Nat → Json
  | obj : List (String × Json) → Json

/-- `struct AppConfig`. -/
structure AppConfig where
  window_layout_map : List (String × Nat)
  hotkeys : List (String × String)
deriving DecidableEq

/-- `HashMap::insert`: replace the value of an existing key, otherwise add
the new entry. -/
def insertAL {β : Type} : List (String × β) → String → β → List (String × β)
  | [], k, v => [(k, v)]
  | (k', v') :: rest, k, v =>
    if k' = k then (k', v) :: rest else (k', v') :: insertAL rest k v

/-- `HashMap::get`. -/
def lookupAL {β : Type} : List (String × β) → String → Option β
  | [], _ => none
  | (k', v) :: rest, k => if k' = k then some v else lookupAL rest k

/-- The mapping store's `get_layout` lookup:
`config.window_layout_map.get(&window_class)`. -/
def getLayout (c : AppConfig) (windowClass : String) : Option Nat :=
  lookupAL c.window_layout_map windowClass

/-- Serialisation of `window_layout_map` entries. -/
def mapToJson (m : List (String × Nat)) : Json :=
  .obj (m.map (fun p => (p.1, Json.num p.2)))

/-- Serialisation of `hotkeys` entries. -/
def hotkeysToJson (h : List (String × String)) : Json :=
  .obj (h.map (fun p => (p.1, Json.str p.2)))

/-- `serde_json::to_string_pretty(self)` as a JSON tree: the two struct
fields in declaration order, each map in iteration order. -/
def AppConfig.toJson (c : AppConfig) : Json :=
  .obj [("window_layout_map", mapToJson c.window_layout_map),
        ("hotkeys", hotkeysToJson c.hotkeys)]

/-- Deserialising the entries of a JSON object into a `HashMap`: each value
is decoded by `f` and inserted in order (on a duplicate key the last value
wins, as `HashMap` deserialisation inserts each entry). -/
def parseEntries {β : Type} (f : Json → Except String β) :
    List (String × β) → List (String × Json) → Except String (List (String × β))
  | m, [] => pure m
  | m, (k, j) :: rest => do
    let v ← f j
    parseEntries f (insertAL m k v) rest

/-- Decoding one `u8` value: a JSON number in `u8` range. -/
def parseU8 : Json → Except String Nat
  | .num n => if n < 256 then pure n else .error "integer out of range for u8"
  | _ => .error "invalid type: expected u8"

/-- Decoding one string value. -/
def parseStr : Json → Except String String
  | .str s => pure s
  | _ => .error "invalid type: expected string"

/-- Deserialising `HashMap<String, u8>`. -/
def parseNatMap : Json → Except String (List (String × Nat))
  | .obj fields => parseEntries parseU8 [] fields
  | _ => .error "invalid type: expected a map"

/-- Deserialising `HashMap<String, String>`. -/
def parseStrMap : Json → Except String (List (String × String))
  | .obj fields => parseEntries parseStr [] fields
  | _ => .error "invalid type: expected a map"

/-- Deserialising `AppConfig` (serde derive): both named fields are required,
unknown fields are ignored, a non-object document is a type error. -/
def AppConfig.fromJson : Json → Except String AppConfig
  | .obj fields => do
    let wm ← match lookupAL fields "window_layout_map" with
      | some j => parseNatMap j
      | none => Except.error "missing field window_layout_map"
    let hk ← match lookupAL fields "hotkeys" with
      | some j => parseStrMap j
      | none => Except.error "missing field hotkeys"
    pure ⟨wm, hk⟩
  | _ => .error "invalid type: expected struct AppConfig"

/-- The configuration `load_from_file` creates when the file is missing. -/
def defaultConfig : AppConfig :=
  ⟨[], [("add_window", "ctrl shift q")]⟩

/-- `AppConfig::save_to_file`: serialise and write the whole buffer; the
file now holds exactly the serialised document. -/
def save_to_file (c : AppConfig) : Option Json :=
  some (AppConfig.toJson c)

/-- `AppConfig::load_from_file`: an existing file is parsed (malformed
contents are a hard error surfaced to the caller); a missing file yields the
default configuration, which is saved immediately. Returns the loaded
configuration together with the resulting file state. -/
def load_from_file : Option Json → Except String (AppConfig × Option Json)
  | some content => (AppConfig.fromJson content).map (fun c => (c, some content))
  | none => pure (defaultConfig, save_to_file defaultConfig)

/-- The `--add` path `KeyboardLayoutSwitcher::add_current_window`, after the
window class and current layout have been resolved: upsert into the live
shared in-memory config, then save it. Returns the new live config and file
state. -/
def add_current_window (live : AppConfig) (windowClass : String) (layout : Nat) :
    AppConfig × Option Json :=
  let live' := { live with
    window_layout_map := insertAL live.window_layout_map windowClass layout }
  (live', save_to_file live')

/-- The hotkey remember path inside `start_keyboard_listener`, after the
window class and current layout have been resolved: a fresh `local_config`
is loaded from the file, upserted and saved; the live shared config
(`self.config`) is never written on this path, so it is returned unchanged. -/
def hotkey_remember (live : AppConfig) (disk : Option Json) (windowClass : String)
    (layout : Nat) : Except String (AppConfig × Option Json) := do
  let loaded ← load_from_file disk
  let localConfig := loaded.1
  let localConfig' := { localConfig with
    window_layout_map := insertAL localConfig.window_layout_map windowClass layout }
  pure (live, save_to_file localConfig')

/-- A well-formed in-memory configuration: unique keys in both maps (the
`HashMap` invariant) and `u8`-ranged layout values. -/
def ValidConfig (c : AppConfig) : Prop :=
  (c.window_layout_map.map Prod.fst).Nodup ∧ (c.hotkeys.map Prod.fst).Nodup ∧
    ∀ p ∈ c.window_layout_map, p.2 < 256

instance (c : AppConfig) : Decidable (ValidConfig c) := by
  unfold ValidConfig
  infer_instance

lemma insertAL_not_mem {β : Type} (m : List (String × β)) (k : String) (v : β)
    (h : k ∉ m.map Prod.fst) : insertAL m k v = m ++ [(k, v)] := by
  induction m with
  | nil => rfl
  | cons p rest ih =>
    obtain ⟨k', v'⟩ := p
    simp only [List.map_cons, List.mem_cons] at h
    push_neg at h
    simp only [insertAL, if_neg (fun hh : k' = k => h.1 hh.symm), List.cons_append,
      List.cons.injEq, true_and]
    exact ih h.2

lemma parseEntries_roundtrip {β : Type} (f : Json → Except String β) (g : β → Json)
    (m acc : List (String × β))
    (hnd : ((acc ++ m).map Prod.fst).Nodup)
    (hf : ∀ p ∈ m, f (g p.2) = pure p.2) :
    parseEntries f acc (m.map (fun p => (p.1, g p.2))) = pure (acc ++ m) := by
  induction m generalizing acc with
  | nil => simp [parseEntries]
  | cons p rest ih =>
    obtain ⟨k, v⟩ := p
    have hkv : f (g v) = pure v := hf (k, v) (by simp)
    simp only [List.map_cons, parseEntries, hkv, pure_bind]
    have hnd' := hnd
    rw [List.map_append, List.nodup_append] at hnd'
    have hknotin : k ∉ acc.map Prod.fst := fun hmem => hnd'.2.2 hmem (by simp)
    rw [insertAL_not_mem acc k v hknotin]
    have heq : (acc ++ [(k, v)]) ++ rest = acc ++ (k, v) :: rest := by simp
    rw [ih (acc ++ [(k, v)]) (by rw [heq]; exact hnd) (fun p hp => hf p (by simp [hp])), heq]

lemma fromJson_toJson (c : AppConfig) (h : ValidConfig c) :
    AppConfig.fromJson (AppConfig.toJson c) = Except.ok c := by
  obtain ⟨hnd1, hnd2, hv⟩ := h
  obtain ⟨wm, hk⟩ := c
  have h1 : parseEntries parseU8 [] (wm.map (fun p => (p.1, Json.num p.2))) = pure wm := by
    have hr := parseEntries_roundtrip parseU8 Json.num wm []
      (by simpa using hnd1)
      (fun p hp => by simp [parseU8, hv p hp])
    simpa using hr
  have h2 : parseEntries parseStr [] (hk.map (fun p => (p.1, Json.str p.2))) = pure hk := by
    have hr := parseEntries_roundtrip parseStr Json.str hk []
      (by simpa using hnd2)
      (fun p hp => by simp [parseStr])
    simpa using hr
  simp [AppConfig.fromJson, AppConfig.toJson, mapToJson, hotkeysToJson, lookupAL,
    parseNatMap, parseStrMap, h1, h2]
  rfl

lemma lookupAL_insertAL {β : Type} (m : List (String × β)) (k : String) (v : β) :
    lookupAL (insertAL m k v) k = some v := by
  induction m with
  | nil => simp [insertAL, lookupAL]
  | cons p rest ih =>
    obtain ⟨k', v'⟩ := p
    by_cases hk : k' = k
    · simp [insertAL, lookupAL, hk]
    · simp [insertAL, lookupAL, hk, ih]

lemma mem_keys_insertAL {β : Type} (m : List (String × β)) (k a : String) (v : β) :
    a ∈ (insertAL m k v).map Prod.fst ↔ a ∈ m.map Prod.fst ∨ a = k := by
  induction m with
  | nil => simp [insertAL]
  | cons p rest ih =>
    obtain ⟨k', v'⟩ := p
    by_cases hk : k' = k
    · subst hk
      simp only [insertAL, eq_self_iff_true, ite_true, List.map_cons, List.mem_cons]
      tauto
    · simp only [insertAL, if_neg hk, List.map_cons, List.mem_cons, ih]
      tauto

lemma keys_nodup_insertAL {β : Type} (m : List (String × β)) (k : String) (v : β)
    (h : (m.map Prod.fst).Nodup) : ((insertAL m k v).map Prod.fst).Nodup := by
  induction m with
  | nil => simp [insertAL]
  | cons p rest ih =>
    obtain ⟨k', v'⟩ := p
    simp only [List.map_cons, List.nodup_cons] at h
    by_cases hk : k' = k
    · simp only [insertAL, if_pos hk, List.map_cons, List.nodup_cons]
      exact ⟨h.1, h.2⟩
    · simp only [insertAL, if_neg hk, List.map_cons, List.nodup_cons]
      refine ⟨?_, ih h.2⟩
      rw [mem_keys_insertAL]
      rintro (hmem | heq)
      · exact h.1 hmem
      · exact hk heq

lemma values_insertAL {β : Type} (P : β → Prop) (m : List (String × β)) (k : String) (v : β)
    (hm : ∀ p ∈ m, P p.2) (hv : P v) : ∀ p ∈ insertAL m k v, P p.2 := by
  induction m with
  | nil =>
    intro p hp
    simp only [insertAL, List.mem_singleton] at hp
    simpa [hp] using hv
  | cons q rest ih =>
    obtain ⟨k', v'⟩ := q
    intro p hp
    by_cases hk : k' = k
    · simp only [insertAL, if_pos hk, List.mem_cons] at hp
      rcases hp with h1 | h2
      · simpa [h1] using hv
      · exact hm p (by simp [h2])
    · simp only [insertAL, if_neg hk, List.mem_cons] at hp
      rcases hp with h1 | h2
      · exact hm p (by simp [h1])
      · exact ih (fun q hq => hm q (by simp [hq])) p h2

lemma validConfig_insert (c : AppConfig) (cls : String) (layout : Nat)
    (h : ValidConfig c) (hl : layout < 256) :
    ValidConfig ⟨insertAL c.window_layout_map cls layout, c.hotkeys⟩ :=
  ⟨keys_nodup_insertAL _ _ _ h.1, h.2.1,
    values_insertAL (fun n => n < 256) _ _ _ h.2.2 hl⟩

/-- C5: serialisation round-trips exactly for every valid configuration: a
fresh load of a saved configuration yields it back with no entries lost, and
saving the reloaded value produces the identical document,
`save(load(save(cfg))) == save(cfg)`. -/
theorem save_load_save_stable (c : AppConfig) (h : ValidConfig c) :
    AppConfig.fromJson (AppConfig.toJson c) = Except.ok c ∧
      (AppConfig.fromJson (AppConfig.toJson c)).map AppConfig.toJson =
        Except.ok (AppConfig.toJson c) := by
  have hr := fromJson_toJson c h
  exact ⟨hr, by rw [hr]; rfl⟩

theorem save_load_save_stable_witness :
    ValidConfig ⟨[("firefox", 1), ("term", 2)], [("add_window", "ctrl shift q")]⟩ ∧
      AppConfig.fromJson
          (AppConfig.toJson ⟨[("firefox", 1), ("term", 2)], [("add_window", "ctrl shift q")]⟩) =
        Except.ok ⟨[("firefox", 1), ("term", 2)], [("add_window", "ctrl shift q")]⟩ :=
  ⟨by decide, (save_load_save_stable ⟨[("firefox", 1), ("term", 2)],
      [("add_window", "ctrl shift q")]⟩ (by decide)).1⟩

/-- C6: loading a missing file yields exactly the default configuration —
empty window map and the single hotkey `add_window → "ctrl shift q"` — and
persists it to the file immediately; an existing file whose contents do not
parse is a hard error surfaced to the caller, never replaced by defaults. -/
theorem load_missing_defaults_malformed_errors :
    load_from_file none = Except.ok (defaultConfig, some (AppConfig.toJson defaultConfig)) ∧
      defaultConfig.window_layout_map = [] ∧
      defaultConfig.hotkeys = [("add_window", "ctrl shift q")] ∧
      ∀ j e, AppConfig.fromJson j = Except.error e →
        load_from_file (some j) = Except.error e := by
  refine ⟨rfl, rfl, rfl, fun j e hj => ?_⟩
  simp only [load_from_file, hj]
  rfl

theorem load_missing_defaults_malformed_errors_witness :
    AppConfig.fromJson (Json.num 7) = Except.error "invalid type: expected struct AppConfig" ∧
      load_from_file (some (Json.num 7)) =
        Except.error "invalid type: expected struct AppConfig" :=
  ⟨rfl, load_missing_defaults_malformed_errors.2.2.2 (Json.num 7) _ rfl⟩

/-- C2 counterexample: a successful hotkey-triggered remember of window
class "foo" at layout 1, starting from the default live store and a file
holding the default configuration, updates only the file: the live
in-memory store comes back unchanged and its `get_layout("foo")` is still
`none`, not `Some(1)`. -/
theorem hotkey_remember_not_in_live_store :
    hotkey_remember defaultConfig (some (AppConfig.toJson defaultConfig)) "foo" 1 =
        Except.ok (defaultConfig,
          some (AppConfig.toJson ⟨[("foo", 1)], defaultConfig.hotkeys⟩)) ∧
      getLayout defaultConfig "foo" = none :=
  ⟨rfl, rfl⟩

/-- C2 amended: a successful remember through `add_current_window` (the
`--add` path) writes through — `get_layout` on the live store returns the
remembered layout, and still does after a fresh load of the saved file.
A successful hotkey-triggered remember persists the entry so that a fresh
load returns it, but leaves the live in-memory store unchanged. -/
theorem remember_writes_through (live : AppConfig) (disk : Option Json) (cls : String)
    (layout : Nat) (hlive : ValidConfig live) (hl : layout < 256) :
    (getLayout (add_current_window live cls layout).1 cls = some layout ∧
      ∃ c', (add_current_window live cls layout).2 = some (AppConfig.toJson c') ∧
        AppConfig.fromJson (AppConfig.toJson c') = Except.ok c' ∧
        getLayout c' cls = some layout) ∧
    ∀ d disk₀, load_from_file disk = Except.ok (d, disk₀) → ValidConfig d →
      ∃ c', hotkey_remember live disk cls layout =
          Except.ok (live, some (AppConfig.toJson c')) ∧
        AppConfig.fromJson (AppConfig.toJson c') = Except.ok c' ∧
        getLayout c' cls = some layout := by
  constructor
  · exact ⟨lookupAL_insertAL _ _ _,
      ⟨insertAL live.window_layout_map cls layout, live.hotkeys⟩, rfl,
      fromJson_toJson _ (validConfig_insert live cls layout hlive hl),
      lookupAL_insertAL _ _ _⟩
  · intro d disk₀ hload hd
    refine ⟨⟨insertAL d.window_layout_map cls layout, d.hotkeys⟩, ?_,
      fromJson_toJson _ (validConfig_insert d cls layout hd hl),
      lookupAL_insertAL _ _ _⟩
    unfold hotkey_remember
    rw [hload]
    rfl

theorem remember_writes_through_witness :
    ValidConfig defaultConfig ∧ (1 : Nat) < 256 ∧
      getLayout (add_current_window defaultConfig "foo" 1).1 "foo" = some 1 :=
  ⟨by decide, by decide,
    (remember_writes_through defaultConfig none "foo" 1 (by decide) (by decide)).1.1⟩

/-! The focus-change reactor: `handle_window_change` plus the event loop of
`run`. The X11 queries and the `xkblayout-state` helper are external
collaborators; what they report during one handling cycle is captured in a
`FocusEnv`. -/

/-- The external observations made during one `handle_window_change` call:
what `get_window_class` resolves for the focused window, what
`get_current_layout` reports, and whether the `xkblayout-state set` command
would succeed. -/
structure FocusEnv where
  windowClass : Option String
  currentLayout : Option Nat
  switchOk : Bool

/-- The observable outcome of one `handle_window_change` call: the updated
`last_window_id` cursor, whether the mapping was consulted, the layout-switch
commands issued, and whether the call returned `Ok`. -/
structure FocusStep where
  cursor : Option Nat
  lookedUp : Bool
  switchCalls : List Nat
  ok : Bool
deriving DecidableEq

/-- `KeyboardLayoutSwitcher::handle_window_change`: a window id equal to the
cursor returns at once; otherwise the cursor is updated first, then the
mapping is consulted, and a switch command is issued only on a layout
mismatch — a failing switch makes the call return `Err` (the `?` on
`switch_layout`). -/
def handleWindowChange (lastWindowId : Option Nat) (cfg : AppConfig) (windowId : Nat)
    (env : FocusEnv) : FocusStep :=
  if lastWindowId = some windowId then ⟨lastWindowId, false, [], true⟩
  else
    match env.windowClass with
    | none => ⟨some windowId, false, [], true⟩
    | some cls =>
      match getLayout cfg cls with
      | none => ⟨some windowId, true, [], true⟩
      | some target =>
        match env.currentLayout with
        | none => ⟨some windowId, true, [], true⟩
        | some current =>
          if current ≠ target then ⟨some windowId, true, [target], env.switchOk⟩
          else ⟨some windowId, true, [], true⟩

/-- The event loop of `run`: each focus event resolves to a window id and its
cycle environment, and `self.handle_window_change(&conn, win)?` propagates an
`Err` out of the loop. Returns all switch commands issued and whether the
loop is still alive afterwards. -/
def runLoop (lastWindowId : Option Nat) (cfg : AppConfig) :
    List (Nat × FocusEnv) → List Nat × Bool
  | [] => ([], true)
  | (wid, env) :: rest =>
    let r := handleWindowChange lastWindowId cfg wid env
    if r.ok then
      let res := runLoop r.cursor cfg rest
      (r.switchCalls ++ res.1, res.2)
    else (r.switchCalls, false)

lemma handleWindowChange_cursor (last : Option Nat) (cfg : AppConfig) (w : Nat)
    (env : FocusEnv) : (handleWindowChange last cfg w env).cursor = some w := by
  unfold handleWindowChange
  split
  next h => simp [h]
  next h => (repeat' split) <;> rfl

lemma handleWindowChange_calls_len (last : Option Nat) (cfg : AppConfig) (w : Nat)
    (env : FocusEnv) : (handleWindowChange last cfg w env).switchCalls.length ≤ 1 := by
  unfold handleWindowChange
  (repeat' split) <;> simp

lemma runLoop_same_window (cfg : AppConfig) (w : Nat) (envs : List FocusEnv) :
    runLoop (some w) cfg (envs.map (fun e => (w, e))) = ([], true) := by
  induction envs with
  | nil => rfl
  | cons e es ih =>
    have hstep : handleWindowChange (some w) cfg w e = ⟨some w, false, [], true⟩ := by
      unfold handleWindowChange
      rw [if_pos rfl]
    simp [runLoop, hstep, ih]

/-- C7: a focus notification whose window identity equals the Focus Cursor
is a no-op — no mapping lookup, no switch command, cursor unchanged, `Ok` —
and over any run of focus events that all carry the same window identity the
reactor issues at most one switch command. -/
theorem same_window_focus_idempotent (cfg : AppConfig) (w : Nat) (env : FocusEnv)
    (last : Option Nat) (envs : List FocusEnv) :
    handleWindowChange (some w) cfg w env = ⟨some w, false, [], true⟩ ∧
      (runLoop last cfg (envs.map (fun e => (w, e)))).1.length ≤ 1 := by
  constructor
  · unfold handleWindowChange
    rw [if_pos rfl]
  · cases envs with
    | nil => simp [runLoop]
    | cons e es =>
      have hc := handleWindowChange_cursor last cfg w e
      have hl := handleWindowChange_calls_len last cfg w e
      by_cases hok : (handleWindowChange last cfg w e).ok
      · simp only [List.map_cons, runLoop, if_pos hok, hc, runLoop_same_window]
        simpa using hl
      · simp only [List.map_cons, runLoop, if_neg hok]
        exact hl

/-- C8: on a focus change to a window whose class is mapped, no switch
command is issued when the adapter already reports the mapped layout; any
issued switch is the single mapped layout, and only happens when the
reported layout differs from it. -/
theorem no_switch_on_already_correct_layout (last : Option Nat) (cfg : AppConfig)
    (wid : Nat) (env : FocusEnv) (cls : String) (target : Nat)
    (hcls : env.windowClass = some cls) (hmap : getLayout cfg cls = some target) :
    (env.currentLayout = some target →
      (handleWindowChange last cfg wid env).switchCalls = []) ∧
    ((handleWindowChange last cfg wid env).switchCalls ≠ [] →
      ∃ current, env.currentLayout = some current ∧ current ≠ target ∧
        (handleWindowChange last cfg wid env).switchCalls = [target]) := by
  by_cases hlast : last = some wid
  · constructor
    · intro _
      simp [handleWindowChange, hlast]
    · intro hne
      exact absurd (by simp [handleWindowChange, hlast]) hne
  · cases hcur : env.currentLayout with
    | none =>
      constructor
      · intro hsome
        exact Option.noConfusion hsome
      · intro hne
        exact absurd (by simp [handleWindowChange, hlast, hcls, hmap, hcur]) hne
    | some current =>
      by_cases hct : current = target
      · constructor
        · intro _
          simp [handleWindowChange, hlast, hcls, hmap, hcur, hct]
        · intro hne
          exact absurd (by simp [handleWindowChange, hlast, hcls, hmap, hcur, hct]) hne
      · constructor
        · intro hsome
          cases hsome
          exact absurd rfl hct
        · intro _
          exact ⟨current, rfl, hct, by simp [handleWindowChange, hlast, hcls, hmap, hcur, hct]⟩

theorem no_switch_on_already_correct_layout_witness :
    (⟨some "term", some 2, true⟩ : FocusEnv).windowClass = some "term" ∧
      getLayout ⟨[("term", 2)], []⟩ "term" = some 2 ∧
      (handleWindowChange none ⟨[("term", 2)], []⟩ 1
          ⟨some "term", some 2, true⟩).switchCalls = [] :=
  ⟨rfl, by decide,
    (no_switch_on_already_correct_layout none ⟨[("term", 2)], []⟩ 1
      ⟨some "term", some 2, true⟩ "term" 2 rfl (by decide)).1 rfl⟩

/-- C3 counterexample: with "term" mapped to layout 2, the adapter reporting
layout 1 and the switch command failing, `handle_window_change` returns
`Err`, and in the event loop this error propagates (the `?`): the loop dies
and the second focus event is never processed — the reactor does not
continue. -/
theorem switch_failure_kills_reactor :
    (handleWindowChange none ⟨[("term", 2)], []⟩ 1 ⟨some "term", some 1, false⟩).ok = false ∧
      runLoop none ⟨[("term", 2)], []⟩
          [(1, ⟨some "term", some 1, false⟩), (2, ⟨some "term", some 1, true⟩)] =
        ([2], false) :=
  ⟨by decide, by decide⟩

/-- C3 amended: a failed layout-read during focus-change handling is
harmless — the cycle is skipped, the call returns `Ok` and the loop goes on
to the next event — but a failed layout-switch command makes
`handle_window_change` return an error that terminates the reactor's event
loop. -/
theorem reactor_error_handling (last : Option Nat) (cfg : AppConfig) (wid : Nat)
    (env : FocusEnv) (rest : List (Nat × FocusEnv)) (hread : env.currentLayout = none) :
    ((handleWindowChange last cfg wid env).ok = true ∧
      (runLoop last cfg ((wid, env) :: rest)).2 =
        (runLoop (handleWindowChange last cfg wid env).cursor cfg rest).2) ∧
    ∀ last' wid' env' cls target current,
      last' ≠ some wid' → env'.windowClass = some cls → getLayout cfg cls = some target →
      env'.currentLayout = some current → current ≠ target → env'.switchOk = false →
      (handleWindowChange last' cfg wid' env').ok = false ∧
        ∀ rest', (runLoop last' cfg ((wid', env') :: rest')).2 = false := by
  have hok : (handleWindowChange last cfg wid env).ok = true := by
    unfold handleWindowChange
    split
    next => rfl
    next =>
      split
      · rfl
      next cls =>
        split
        · rfl
        next target =>
          rw [hread]
  refine ⟨⟨hok, ?_⟩, ?_⟩
  · simp only [runLoop, if_pos hok]
  · intro last' wid' env' cls target current hne hcls hmap hcur hct hsw
    have hko : (handleWindowChange last' cfg wid' env').ok = false := by
      simp only [handleWindowChange, if_neg hne, hcls, hmap, hcur, if_pos hct]
      exact hsw
    refine ⟨hko, fun rest' => ?_⟩
    simp [runLoop, hko]

theorem reactor_error_handling_witness :
    (⟨some "term", none, true⟩ : FocusEnv).currentLayout = none ∧
      (handleWindowChange none ⟨[("term", 2)], []⟩ 1 ⟨some "term", none, true⟩).ok = true ∧
      (handleWindowChange none ⟨[("term", 2)], []⟩ 1 ⟨some "term", some 1, false⟩).ok = false :=
  ⟨rfl,
    (reactor_error_handling none ⟨[("term", 2)], []⟩ 1 ⟨some "term", none, true⟩ [] rfl).1.1,
    ((reactor_error_handling none ⟨[("term", 2)], []⟩ 1 ⟨some "term", none, true⟩ [] rfl).2
      none 1 ⟨some "term", some 1, false⟩ "term" 2 1 (by decide) rfl (by decide) rfl
      (by decide) rfl).1⟩
